import Mathlib

/-!
Verification development for the abm repository: a typed Go client for the
Apple Business Manager API.  The definitions below are a shallow embedding of
the repository's source (pagination iterator, URL resolution, key parsing,
assertion creation, token-source construction, and query building).  External
standard-library behaviour (net/url parsing and reference resolution, the
oauth2 client-credentials request body) is modelled by restricted but faithful
Lean functions; each such model carries a doc comment naming the original and
the simplifications taken.
-/

namespace Abm

/-! ## Model of net/url (restricted)

The repository's pagination code relies on url.Parse, URL.IsAbs,
URL.ResolveReference and URL.String from the Go standard library.  The model
below follows the structure of net/url's parser for URLs of the shape
scheme://host/path?query, with these simplifications: fragments, user-info and
percent-escaping are not modelled (the corresponding characters are kept as
ordinary path characters), host syntax is not validated, and the scheme is
kept case-sensitively (Go lower-cases it).  Errors are produced exactly where
net/url produces them: control characters in the URL, a missing protocol
scheme before a colon, and a colon in the first segment of a scheme-less
rootless path. -/

/-- Control characters rejected by the URL parser (bytes below 0x20 and DEL),
as in net/url's stringContainsCTLByte. -/
def isCtlChar (c : Char) : Bool := c.toNat < 32 || c.toNat == 127

/-- Scheme characters allowed after the leading letter, besides letters. -/
def isSchemeTail (c : Char) : Bool := c.isDigit || c == '+' || c == '-' || c == '.'

/-- Model of net/url's getScheme: scans for a scheme prefix terminated by a
colon.  Returns the pair (scheme, rest); the scheme is empty when the input
has no scheme prefix, in which case rest is the whole input.  An immediate
colon is the error "missing protocol scheme". -/
def getSchemeGo (acc : List Char) : List Char → Except String (List Char × List Char)
  | [] => .ok ([], acc.reverse)
  | c :: rest =>
    if c.isAlpha then getSchemeGo (c :: acc) rest
    else if isSchemeTail c then
      if acc.isEmpty then .ok ([], c :: rest) else getSchemeGo (c :: acc) rest
    else if c == ':' then
      if acc.isEmpty then .error "missing protocol scheme"
      else .ok (acc.reverse, rest)
    else .ok ([], acc.reverse ++ c :: rest)

/-- Cut a character list at the first question mark: (before, after?).  The
second component is none when no question mark occurs, mirroring how net/url
splits RawQuery off the remainder of the URL. -/
def cutQuery : List Char → List Char × Option (List Char)
  | [] => ([], none)
  | c :: rest =>
    if c == '?' then ([], some rest)
    else
      let p := cutQuery rest
      (c :: p.1, p.2)

/-- Model of net/url.URL restricted to the fields the repository exercises:
scheme, opaque part (field opaq), host, path, raw query (none when the URL had
no question mark) and the OmitHost flag. -/
structure GoURL where
  scheme : String
  opaq : String
  host : String
  path : String
  rawQuery : Option String
  omitHost : Bool
deriving Repr, DecidableEq

/-- Core of the URL parser, applied after the scheme and the query have been
split off; mirrors the authority / omit-host / opaque / rootless-path case
analysis of net/url.parse with viaRequest = false. -/
def parseURLCore (scheme : String) (restNoQ : List Char) (rawQuery : Option String) :
    Except String GoURL :=
  match restNoQ with
  | '/' :: '/' :: afterSlashes =>
    let auth := afterSlashes.takeWhile (fun c => c != '/')
    let rest2 := afterSlashes.dropWhile (fun c => c != '/')
    .ok { scheme := scheme, opaq := "", host := String.mk auth, path := String.mk rest2,
          rawQuery := rawQuery, omitHost := false }
  | '/' :: rest =>
    .ok { scheme := scheme, opaq := "", host := "", path := String.mk ('/' :: rest),
          rawQuery := rawQuery, omitHost := scheme != "" }
  | rest =>
    if scheme != "" then
      .ok { scheme := scheme, opaq := String.mk rest, host := "", path := "",
            rawQuery := rawQuery, omitHost := false }
    else if (rest.takeWhile (fun c => c != '/')).contains ':' then
      .error "first path segment in URL cannot contain colon"
    else
      .ok { scheme := scheme, opaq := "", host := "", path := String.mk rest,
            rawQuery := rawQuery, omitHost := false }

/-- Model of net/url.Parse (restricted as described above). -/
def parseURL (s : String) : Except String GoURL :=
  if s.toList.any isCtlChar then .error "invalid control character in URL"
  else
    match getSchemeGo [] s.toList with
    | .error e => .error e
    | .ok (schemeChars, restAll) =>
      let p := cutQuery restAll
      parseURLCore (String.mk schemeChars) p.1 (p.2.map String.mk)

/-- Model of net/url.URL.String for the modelled fields. -/
def urlString (u : GoURL) : String :=
  (if u.scheme != "" then u.scheme ++ ":" else "")
    ++ (if u.opaq != "" then u.opaq
        else
          (if u.scheme != "" || u.host != "" then
            (if u.omitHost && u.host == "" then ""
             else if u.host != "" || u.path != "" then "//" ++ u.host
             else "")
           else "")
          ++ u.path)
    ++ (match u.rawQuery with
        | some q => "?" ++ q
        | none => "")

/-- Everything of the list up to and including its last slash; empty when the
list holds no slash.  Models base up to strings.LastIndex(base, slash)+1 in
net/url's resolvePath. -/
def dropLastSegment (l : List Char) : List Char :=
  (l.reverse.dropWhile (fun c => c != '/')).reverse

/-- Split a character list on slashes into its components. -/
def splitSlash : List Char → List (List Char)
  | [] => [[]]
  | c :: rest =>
    if c == '/' then [] :: splitSlash rest
    else
      match splitSlash rest with
      | [] => [[c]]
      | s :: ss => (c :: s) :: ss

/-- Dot-segment removal over path components, with net/url's behaviour of a
trailing slash after a final dot or dot-dot component.  The first argument is
the stack of components kept so far, most recent first. -/
def dotSegments (stack : List String) : List String → List String
  | [] => stack.reverse
  | seg :: rest =>
    if seg = "." then
      if rest.isEmpty then stack.reverse ++ [""] else dotSegments stack rest
    else if seg = ".." then
      let stack2 := stack.tail
      if rest.isEmpty then stack2.reverse ++ [""] else dotSegments stack2 rest
    else dotSegments (seg :: stack) rest

/-- Model of net/url's resolvePath: merges a reference path into a base path
per RFC 3986 and removes dot segments; the result is empty or begins with a
slash. -/
def resolvePathGo (base ref : String) : String :=
  let full : List Char :=
    if ref = "" then base.toList
    else if ref.toList.head? != some '/' then dropLastSegment base.toList ++ ref.toList
    else ref.toList
  if full.isEmpty then ""
  else
    let comps :=
      match splitSlash full with
      | [] :: rest => rest
      | comps => comps
    "/" ++ String.intercalate "/" (dotSegments [] (comps.map String.mk))

/-- Model of net/url.URL.ResolveReference for the modelled fields (no
user-info, no fragments). -/
def resolveReference (base ref : GoURL) : GoURL :=
  let scheme := if ref.scheme = "" then base.scheme else ref.scheme
  if ref.scheme != "" || ref.host != "" then
    { scheme := scheme, opaq := ref.opaq, host := ref.host,
      path := resolvePathGo ref.path "", rawQuery := ref.rawQuery,
      omitHost := ref.omitHost }
  else if ref.opaq != "" then
    { scheme := scheme, opaq := ref.opaq, host := "", path := "",
      rawQuery := ref.rawQuery, omitHost := ref.omitHost }
  else
    let rawQuery := if ref.path = "" ∧ ref.rawQuery = none then base.rawQuery else ref.rawQuery
    { scheme := scheme, opaq := "", host := base.host,
      path := resolvePathGo base.path ref.path, rawQuery := rawQuery,
      omitHost := ref.omitHost }

/-- Embedding of resolveNextURL from the repository's pagination source: an
empty next link is terminal (empty string, no error); otherwise the link is
parsed, an absolute link is returned as such, and a relative link is resolved
against the URL that produced the current page; a parse failure is wrapped
into an error. -/
def resolveNextURL (baseURL : GoURL) (next : String) : Except String String :=
  if next = "" then .ok ""
  else
    match parseURL next with
    | .error e => .error ("parse next links url: " ++ e)
    | .ok parsed =>
      if parsed.scheme != "" then .ok (urlString parsed)
      else .ok (urlString (resolveReference baseURL parsed))

deriving instance DecidableEq for Except

example : parseURL "https://h/v1/orgDevices?page=2" =
    .ok { scheme := "https", opaq := "", host := "h", path := "/v1/orgDevices",
          rawQuery := some "page=2", omitHost := false } := by decide

example :
    resolveNextURL { scheme := "https", opaq := "", host := "h", path := "/v1/orgDevices",
                     rawQuery := none, omitHost := false } "/x?page=2" =
      .ok "https://h/x?page=2" := by decide

example :
    resolveNextURL { scheme := "https", opaq := "", host := "h", path := "/v1/orgDevices",
                     rawQuery := none, omitHost := false } "://bad" =
      .error "parse next links url: missing protocol scheme" := by decide

/-! ## Pagination iterator

PageIterator in the source returns an iter.Seq2 closure over an HTTP client, a
decoder and a base URL.  The embedding makes the effects explicit: the world
is a PageEnv (context-cancellation answers per check, one fetch outcome per
fetch index and URL, a pure decoder), the consumer's yield answers are a
function of how many pages it has received, and the run is the finite list of
yielded elements together with the number of fetches performed. -/

/-- Hard page ceiling from the source (const maxPages = 1000). -/
def maxPages : Nat := 1000

/-- Outcome of one HTTP fetch as seen by the iterator: a transport error from
client.Do, a body-read error from io.ReadAll, or a status code with the fully
read body. -/
inductive FetchOutcome where
  | netErr (msg : String)
  | readErr (msg : String)
  | ok (status : Nat) (body : String)
deriving Repr, DecidableEq

/-- World of one iteration: ctxErr n answers the n-th context check (none =
live), fetch n url is the outcome of the n-th fetch, decode is the
caller-supplied PageDecoderFunc returning (items, next link) or an error. -/
structure PageEnv (T : Type) where
  ctxErr : Nat → Option String
  fetch : Nat → String → FetchOutcome
  decode : String → Except String (T × String)

/-- Error kinds the iterator can yield; each constructor corresponds to one
error site of PageIterator in the source, in source order. -/
inductive IterError where
  | ctxCanceled (e : String)
  | maxPagesExceeded (n : Nat)
  | buildRequest (msg : String)
  | requestFailed (msg : String)
  | readFailed (msg : String)
  | badStatus (status : Nat) (body : String)
  | decodeFailed (e : String)
  | resolveFailed (msg : String)
deriving Repr, DecidableEq

/-- One element of the yielded sequence: a successfully decoded page's items,
or an error element. -/
inductive Yielded (T : Type) where
  | page (t : T)
  | fail (e : IterError)
deriving Repr, DecidableEq

/-- True exactly on error elements. -/
def Yielded.isFail {T : Type} : Yielded T → Bool
  | .page _ => false
  | .fail _ => true

/-- Embedding of PageIterator's loop.  Arguments track the consumed count (how
many pages the consumer has been handed, indexing its yield answers), the
number of fetches performed so far, the current URL and the page counter.  The
returned pair is (yielded elements, total fetches performed). -/
def pageLoop {T : Type} (env : PageEnv T) (consumer : Nat → Bool)
    (consumed fetches : Nat) (nextURL : String) (page : Nat) :
    List (Yielded T) × Nat :=
  if nextURL = "" then ([], fetches)
  else
    match env.ctxErr (page + 1) with
    | some e => ([.fail (.ctxCanceled e)], fetches)
    | none =>
      if _hp : maxPages ≤ page then ([.fail (.maxPagesExceeded maxPages)], fetches)
      else
        match parseURL nextURL with
        | .error e => ([.fail (.buildRequest e)], fetches)
        | .ok reqURL =>
          match env.fetch fetches nextURL with
          | .netErr msg => ([.fail (.requestFailed msg)], fetches + 1)
          | .readErr msg => ([.fail (.readFailed msg)], fetches + 1)
          | .ok status body =>
            if status < 200 ∨ 300 ≤ status then
              ([.fail (.badStatus status body)], fetches + 1)
            else
              match env.decode body with
              | .error e => ([.fail (.decodeFailed e)], fetches + 1)
              | .ok (data, nextLink) =>
                if consumer consumed then
                  match resolveNextURL reqURL nextLink with
                  | .error msg => ([.page data, .fail (.resolveFailed msg)], fetches + 1)
                  | .ok next2 =>
                    let r := pageLoop env consumer (consumed + 1) (fetches + 1) next2 (page + 1)
                    (.page data :: r.1, r.2)
                else ([.page data], fetches + 1)
termination_by maxPages - page
decreasing_by omega

/-- Embedding of PageIterator: the pre-loop context check followed by the
loop, started at the base URL with zero pages consumed and zero fetches. -/
def PageIterator {T : Type} (env : PageEnv T) (consumer : Nat → Bool)
    (baseURL : String) : List (Yielded T) × Nat :=
  match env.ctxErr 0 with
  | some e => ([.fail (.ctxCanceled e)], 0)
  | none => pageLoop env consumer 0 0 baseURL 0

/-! ## Key parsing and assertion creation (auth.go)

The cryptographic exteriors are modelled semantically: PEM bytes are
represented by the result of pem.Decode (an optional block whose payload is a
DER value), and a DER value is represented by what x509.ParsePKCS8PrivateKey
would return on it (malformed, or a well-formed key of some kind on some
curve).  Signing with ES256 is modelled as packaging the header and claims;
verifying with the matching public key recovers exactly that pair. -/

/-- Fixed Apple Business Manager OAuth2 audience (const Audience). -/
def Audience : String := "https://account.apple.com/auth/oauth2/v2/token"

/-- Fixed Apple Business Manager OAuth2 token URL (const TokenURL). -/
def TokenURL : String := "https://account.apple.com/auth/oauth2/token"

/-- Fixed client assertion type URN for JWT bearer (const ClientAssertionURI). -/
def ClientAssertionURI : String := "urn:ietf:params:oauth:client-assertion-type:jwt-bearer"

/-- Default Business API scope (const ScopeBusinessAPI). -/
def ScopeBusinessAPI : String := "business.api"

/-- Name of the one supported curve, elliptic.P256().Params().Name. -/
def P256Name : String := "P-256"

/-- A private key as classified by the PKCS#8 parser: an ECDSA key on a named
curve, or a key of some other type (RSA, Ed25519, ...). -/
inductive PKCS8Key where
  | ecdsaKey (curveName : String)
  | otherKey (typeName : String)
deriving Repr, DecidableEq

/-- A DER payload, represented semantically by what
x509.ParsePKCS8PrivateKey returns on it. -/
inductive DerBytes where
  | malformed (msg : String)
  | wellFormed (k : PKCS8Key)
deriving Repr, DecidableEq

/-- Model of x509.ParsePKCS8PrivateKey over the semantic DER representation. -/
def parsePKCS8PrivateKey : DerBytes → Except String PKCS8Key
  | .malformed msg => .error msg
  | .wellFormed k => .ok k

/-- A decoded PEM block: its label and its DER payload.  A byte input to the
key parser is modelled by pem.Decode's result on it: none when no block is
present, otherwise the first block. -/
structure PemBlock where
  blockType : String
  der : DerBytes
deriving Repr, DecidableEq

/-- An ECDSA private key as the repository uses it: only its curve name is
ever consulted. -/
structure ECDSAPrivateKey where
  curveName : String
deriving Repr, DecidableEq

/-- Errors of parseECDSAPrivateKeyFromPEM, one constructor per error site in
the source, so the kinds are distinguishable. -/
inductive KeyError where
  | missingPEMBlock
  | unsupportedBlockType (t : String)
  | pkcs8ParseFailed (blockType msg : String)
  | unexpectedKeyType (t : String)
  | unexpectedCurve (name : String)
deriving Repr, DecidableEq

/-- Error message rendering matching the fmt.Errorf strings in the source. -/
def keyErrorMessage : KeyError → String
  | .missingPEMBlock => "missing PEM block"
  | .unsupportedBlockType t => "unsupported PEM block type: " ++ t
  | .pkcs8ParseFailed bt msg => "parse " ++ bt ++ " private key: " ++ msg
  | .unexpectedKeyType t => "unexpected private key type: " ++ t
  | .unexpectedCurve n => "unexpected elliptic curve: " ++ n

/-- Embedding of parseECDSAPrivateKeyFromPEM: accept the two block labels,
parse the payload with the generic PKCS#8 parser, require an ECDSA key, and
require curve P-256. -/
def parseECDSAPrivateKeyFromPEM (block : Option PemBlock) :
    Except KeyError ECDSAPrivateKey :=
  match block with
  | none => .error .missingPEMBlock
  | some b =>
    if b.blockType = "EC PRIVATE KEY" ∨ b.blockType = "PRIVATE KEY" then
      match parsePKCS8PrivateKey b.der with
      | .error msg => .error (.pkcs8ParseFailed b.blockType msg)
      | .ok (.otherKey t) => .error (.unexpectedKeyType t)
      | .ok (.ecdsaKey curve) =>
        if curve = P256Name then .ok { curveName := curve }
        else .error (.unexpectedCurve curve)
    else .error (.unsupportedBlockType b.blockType)

/-- Registered claims of the assertion JWT; times are UTC Unix seconds. -/
structure RegisteredClaims where
  iss : String
  sub : String
  aud : List String
  exp : Int
  iat : Int
  jti : String
deriving Repr, DecidableEq

/-- Header of the assertion JWT. -/
structure TokenHeader where
  typ : String
  alg : String
  kid : String
deriving Repr, DecidableEq

/-- Environment of one NewAssertion call: the context state, the file system
(reading a path yields a read error or the pem.Decode view of the bytes),
time.Now().UTC() in Unix seconds, and the value uuid.NewString returns during
this call. -/
structure AssertionEnv where
  ctxErr : Option String
  readFile : String → Except String (Option PemBlock)
  nowUTC : Int
  newUUID : String

/-- Embedding of NewAssertion.  The first component is the result: the signed
JWT is modelled as the (header, claims) pair it carries, which verification
with the matching public key recovers.  The second component is the list of
file paths read, in order, making the function's I/O explicit. -/
def NewAssertion (env : AssertionEnv) (clientID keyID privateKeyPath : String) :
    Except String (TokenHeader × RegisteredClaims) × List String :=
  match env.ctxErr with
  | some e => (.error e, [])
  | none =>
    match env.readFile privateKeyPath with
    | .error e => (.error ("read private key: " ++ e), [privateKeyPath])
    | .ok pemView =>
      match parseECDSAPrivateKeyFromPEM pemView with
      | .error ke => (.error ("parse private key: " ++ keyErrorMessage ke), [privateKeyPath])
      | .ok _key =>
        let issuedAt := env.nowUTC
        let expiresAt := issuedAt + 180 * 24 * 60 * 60
        (.ok ({ typ := "JWT", alg := "ES256", kid := keyID },
              { iss := clientID, sub := clientID, aud := [Audience],
                exp := expiresAt, iat := issuedAt, jti := env.newUUID }),
         [privateKeyPath])

/-! ## Token source (auth.go) -/

/-- Model of golang.org/x/oauth2/clientcredentials.Config restricted to the
fields NewTokenSource sets; authStyleInParams reflects
oauth2.AuthStyleInParams. -/
structure ClientCredentialsConfig where
  clientID : String
  clientSecret : String
  tokenURL : String
  scopes : List String
  endpointParams : List (String × String)
  authStyleInParams : Bool
deriving Repr, DecidableEq

/-- Embedding of NewTokenSource: context check, required clientID and
assertion, scope defaulting, and the client-credentials configuration whose
endpoint parameters carry the assertion.  The reuse/cache wrapper and the
transport binding carry no data relevant to the request body and are not
modelled. -/
def NewTokenSource (ctxErr : Option String) (clientID clientAssertion scope : String) :
    Except String ClientCredentialsConfig :=
  match ctxErr with
  | some e => .error e
  | none =>
    if clientID = "" then .error "client ID is required"
    else if clientAssertion = "" then .error "client assertion is required"
    else
      let scope2 := if scope = "" then ScopeBusinessAPI else scope
      .ok { clientID := clientID, clientSecret := "", tokenURL := TokenURL,
            scopes := [scope2],
            endpointParams := [("client_assertion_type", ClientAssertionURI),
                               ("client_assertion", clientAssertion)],
            authStyleInParams := true }

/-- Form-encoded body of the token exchange request produced from a
client-credentials config, modelled from
golang.org/x/oauth2/clientcredentials (grant type and scope) and
oauth2/internal's newTokenRequest (client id and secret are appended to the
parameters when the auth style is in-params and they are non-empty). -/
def tokenRequestParams (cfg : ClientCredentialsConfig) : List (String × String) :=
  [("grant_type", "client_credentials")]
    ++ (if cfg.scopes.isEmpty then [] else [("scope", String.intercalate " " cfg.scopes)])
    ++ cfg.endpointParams
    ++ (if cfg.authStyleInParams then
          (if cfg.clientID = "" then [] else [("client_id", cfg.clientID)])
            ++ (if cfg.clientSecret = "" then [] else [("client_secret", cfg.clientSecret)])
        else [])

/-! ## Client query building (client.go)

The list operations build a url.Values query before issuing any HTTP request
through doJSONRequest.  The embedding models url.Values as a function from
key to values, and models each operation up to the point where the request
would be handed to doJSONRequest: an error result means the operation
returned before any HTTP request was issued, an ok result carries the request
that would be issued. -/

/-- Page limit ceiling of the client (const maxPageLimit = 1000). -/
def maxPageLimit : Int := 1000

/-- Path constants of the client. -/
def orgDevicesPath : String := "v1/orgDevices"

/-- Path constant for the MDM servers endpoints. -/
def mdmServersPath : String := "v1/mdmServers"

/-- Model of url.Values: each key maps to its list of values. -/
def Values : Type := String → List String

/-- The empty url.Values. -/
def emptyValues : Values := fun _ => []

/-- Model of url.Values.Set: replace the key's values with the single value. -/
def valuesSet (q : Values) (key val : String) : Values :=
  fun k => if k = key then [val] else q k

/-- Embedding of setFieldsQuery: trim the fields, drop empties, and join with
commas into the key; leave the query untouched when nothing remains. -/
def setFieldsQuery (q : Values) (key : String) (fields : List String) : Values :=
  if fields.isEmpty then q
  else
    let parts := (fields.map String.trim).filter (fun f => f ≠ "")
    if parts.isEmpty then q
    else valuesSet q key (String.intercalate "," parts)

/-- Embedding of setLimitQuery: zero leaves the query untouched, a negative
or too-large limit is an error, and an in-range limit is set in decimal under
the limit key. -/
def setLimitQuery (q : Values) (limit : Int) : Except String Values :=
  if limit = 0 then .ok q
  else if limit < 0 then .error ("limit must be >= 0: " ++ toString limit)
  else if maxPageLimit < limit then .error ("limit must be <= 1000: " ++ toString limit)
  else .ok (valuesSet q "limit" (toString limit))

/-- Embedding of buildFieldsAndLimitQuery: fields first, then the limit. -/
def buildFieldsAndLimitQuery (fieldKey : String) (fields : List String) (limit : Int) :
    Except String Values :=
  setLimitQuery (setFieldsQuery emptyValues fieldKey fields) limit

/-- Hex digit for percent-escaping, upper case as in net/url. -/
def hexDigit (n : Nat) : Char :=
  if n < 10 then Char.ofNat ('0'.toNat + n) else Char.ofNat ('A'.toNat + n - 10)

/-- Characters a path segment keeps unescaped, per net/url's shouldEscape
with mode encodePathSegment (ASCII view; non-ASCII runes are escaped by byte
in Go and by code point here, a divergence no claim depends on). -/
def isSegmentSafe (c : Char) : Bool :=
  c.isAlphanum || c == '-' || c == '_' || c == '.' || c == '~'
    || c == '$' || c == '&' || c == '+' || c == ':' || c == '=' || c == '@'

/-- Model of url.PathEscape restricted to ASCII input. -/
def pathEscape (s : String) : String :=
  String.mk (s.toList.flatMap (fun c =>
    if isSegmentSafe c then [c]
    else ['%', hexDigit (c.toNat / 16 % 16), hexDigit (c.toNat % 16)]))

/-- Model of strings.TrimSpace (ASCII whitespace view). -/
def trimSpaceGo (s : String) : String :=
  String.mk (((s.toList.dropWhile Char.isWhitespace).reverse.dropWhile
    Char.isWhitespace).reverse)

/-- Embedding of validateAndEscapeID. -/
def validateAndEscapeID (name id : String) : Except String String :=
  let trimmed := trimSpaceGo id
  if trimmed = "" then .error (name ++ " is required")
  else .ok (pathEscape trimmed)

/-- Embedding of joinPath. -/
def joinPath (parts : List String) : String :=
  String.intercalate "/"
    ((parts.map (fun s =>
        String.mk (((s.toList.dropWhile (fun c => c == '/')).reverse.dropWhile
          (fun c => c == '/')).reverse))).filter (fun p => p ≠ ""))

/-- An HTTP request as handed to doJSONRequest: method, path and query. -/
structure Request where
  method : String
  path : String
  query : Values

/-- Options of GetOrgDevices. -/
structure GetOrgDevicesOptions where
  fields : List String
  limit : Int

/-- Options of GetOrgDeviceAppleCareCoverage. -/
structure GetOrgDeviceAppleCareCoverageOptions where
  fields : List String
  limit : Int

/-- Options of GetMDMServers. -/
structure GetMDMServersOptions where
  fields : List String
  limit : Int

/-- Options of GetMDMServerDeviceLinkages. -/
structure GetMDMServerDeviceLinkagesOptions where
  limit : Int

/-- Embedding of Client.GetOrgDevices up to the doJSONRequest call. -/
def GetOrgDevices (options : Option GetOrgDevicesOptions) : Except String Request :=
  let fields := match options with | some o => o.fields | none => []
  let limit := match options with | some o => o.limit | none => 0
  match buildFieldsAndLimitQuery "fields[orgDevices]" fields limit with
  | .error e => .error e
  | .ok q => .ok { method := "GET", path := orgDevicesPath, query := q }

/-- Embedding of Client.GetOrgDeviceAppleCareCoverage up to the doJSONRequest
call. -/
def GetOrgDeviceAppleCareCoverage (orgDeviceID : String)
    (options : Option GetOrgDeviceAppleCareCoverageOptions) : Except String Request :=
  match validateAndEscapeID "org device ID" orgDeviceID with
  | .error e => .error e
  | .ok escapedID =>
    let fields := match options with | some o => o.fields | none => []
    let limit := match options with | some o => o.limit | none => 0
    match buildFieldsAndLimitQuery "fields[appleCareCoverage]" fields limit with
    | .error e => .error e
    | .ok q =>
      .ok { method := "GET", path := joinPath [orgDevicesPath, escapedID, "appleCareCoverage"],
            query := q }

/-- Embedding of Client.GetMDMServers up to the doJSONRequest call. -/
def GetMDMServers (options : Option GetMDMServersOptions) : Except String Request :=
  let fields := match options with | some o => o.fields | none => []
  let limit := match options with | some o => o.limit | none => 0
  match buildFieldsAndLimitQuery "fields[mdmServers]" fields limit with
  | .error e => .error e
  | .ok q => .ok { method := "GET", path := mdmServersPath, query := q }

/-- Embedding of Client.GetMDMServerDeviceLinkages up to the doJSONRequest
call. -/
def GetMDMServerDeviceLinkages (mdmServerID : String)
    (options : Option GetMDMServerDeviceLinkagesOptions) : Except String Request :=
  match validateAndEscapeID "mdm server ID" mdmServerID with
  | .error e => .error e
  | .ok escapedID =>
    let limit := match options with | some o => o.limit | none => 0
    match setLimitQuery emptyValues limit with
    | .error e => .error e
    | .ok q =>
      .ok { method := "GET",
            path := joinPath [mdmServersPath, escapedID, "relationships", "devices"],
            query := q }

/-! ## Theorems for the claims -/

/-- An empty next URL ends the loop cleanly with no further elements. -/
theorem pageLoop_nil {T : Type} (env : PageEnv T) (consumer : Nat → Bool)
    (consumed fetches page : Nat) :
    pageLoop env consumer consumed fetches "" page = ([], fetches) := by
  rw [pageLoop]
  simp

/-- One successful iteration of the loop in which the consumer continues:
live context, page below the ceiling, parseable URL, 2xx fetch, successful
decode, and a resolvable next link. -/
theorem pageLoop_step {T : Type} (env : PageEnv T) (consumer : Nat → Bool)
    (consumed fetches : Nat) (nextURL : String) (page : Nat) (u : GoURL)
    (status : Nat) (body : String) (a : T) (link next2 : String)
    (hne : nextURL ≠ "")
    (hc : env.ctxErr (page + 1) = none)
    (hpage : page < maxPages)
    (hp : parseURL nextURL = .ok u)
    (hf : env.fetch fetches nextURL = .ok status body)
    (hst : ¬(status < 200 ∨ 300 ≤ status))
    (hd : env.decode body = .ok (a, link))
    (hcons : consumer consumed = true)
    (hres : resolveNextURL u link = .ok next2) :
    pageLoop env consumer consumed fetches nextURL page
      = (.page a :: (pageLoop env consumer (consumed + 1) (fetches + 1) next2 (page + 1)).1,
         (pageLoop env consumer (consumed + 1) (fetches + 1) next2 (page + 1)).2) := by
  rw [pageLoop, if_neg hne, hc]
  dsimp only
  rw [dif_neg (by omega)]
  rw [hp]
  dsimp only
  rw [hf]
  dsimp only
  rw [if_neg hst, hd]
  dsimp only
  rw [hcons, if_pos rfl]
  rw [hres]

/-- One successful iteration of the loop after which the consumer stops: the
page is yielded, no error is produced, and no further fetch happens. -/
theorem pageLoop_stop {T : Type} (env : PageEnv T) (consumer : Nat → Bool)
    (consumed fetches : Nat) (nextURL : String) (page : Nat) (u : GoURL)
    (status : Nat) (body : String) (a : T) (link : String)
    (hne : nextURL ≠ "")
    (hc : env.ctxErr (page + 1) = none)
    (hpage : page < maxPages)
    (hp : parseURL nextURL = .ok u)
    (hf : env.fetch fetches nextURL = .ok status body)
    (hst : ¬(status < 200 ∨ 300 ≤ status))
    (hd : env.decode body = .ok (a, link))
    (hcons : consumer consumed = false) :
    pageLoop env consumer consumed fetches nextURL page = ([.page a], fetches + 1) := by
  rw [pageLoop, if_neg hne, hc]
  dsimp only
  rw [dif_neg (by omega)]
  rw [hp]
  dsimp only
  rw [hf]
  dsimp only
  rw [if_neg hst, hd]
  dsimp only
  rw [hcons, if_neg (by decide)]

/-- C1: for every decoder and 2-page fixture (page 1 decodes to items A with
next link /x?page=2, page 2 decodes to items B with empty next link),
iterating to completion yields exactly the elements A then B with no error
element and exactly 2 fetches; a consumer stopping after the first yielded
page causes exactly 1 fetch, no error, and no further fetch. -/
theorem PageIterator_twoPageFixture {T : Type} (env : PageEnv T) (A B : T)
    (base url2 b1 b2 : String) (u1 u2 : GoURL)
    (hctx : ∀ n, env.ctxErr n = none)
    (hbase : base ≠ "")
    (hp1 : parseURL base = .ok u1)
    (hf0 : env.fetch 0 base = .ok 200 b1)
    (hd1 : env.decode b1 = .ok (A, "/x?page=2"))
    (hres : resolveNextURL u1 "/x?page=2" = .ok url2)
    (hu2 : url2 ≠ "")
    (hp2 : parseURL url2 = .ok u2)
    (hf1 : env.fetch 1 url2 = .ok 200 b2)
    (hd2 : env.decode b2 = .ok (B, "")) :
    PageIterator env (fun _ => true) base = ([.page A, .page B], 2)
    ∧ PageIterator env (fun _ => false) base = ([.page A], 1) := by
  have hst : ¬((200 : Nat) < 200 ∨ 300 ≤ (200 : Nat)) := by omega
  constructor
  · have s2 : pageLoop env (fun _ => true) 1 1 url2 1 = ([.page B], 2) := by
      rw [pageLoop_step env (fun _ => true) 1 1 url2 1 u2 200 b2 B "" ""
            hu2 (hctx 2) (by norm_num [maxPages]) hp2 hf1 hst hd2 rfl
            (by simp [resolveNextURL])]
      rw [pageLoop_nil]
    have s1 : pageLoop env (fun _ => true) 0 0 base 0 = ([.page A, .page B], 2) := by
      rw [pageLoop_step env (fun _ => true) 0 0 base 0 u1 200 b1 A "/x?page=2" url2
            hbase (hctx 1) (by norm_num [maxPages]) hp1 hf0 hst hd1 rfl hres]
      rw [show (0 : Nat) + 1 = 1 from rfl] at *
      rw [s2]
    simp only [PageIterator, hctx]
    exact s1
  · have s1 : pageLoop env (fun _ => false) 0 0 base 0 = ([.page A], 1) := by
      rw [pageLoop_stop env (fun _ => false) 0 0 base 0 u1 200 b1 A "/x?page=2"
            hbase (hctx 1) (by norm_num [maxPages]) hp1 hf0 hst hd1 rfl]
    simp only [PageIterator, hctx]
    exact s1

/-- Environment of the C1 witness: a concrete 2-page fixture. -/
def twoPageEnv : PageEnv Nat where
  ctxErr := fun _ => none
  fetch := fun _ u => if u = "https://h/v1/d" then .ok 200 "b1" else .ok 200 "b2"
  decode := fun b => if b = "b1" then .ok (1, "/x?page=2") else .ok (2, "")

/-- Witness for C1 on the concrete 2-page fixture. -/
theorem PageIterator_twoPageFixture_witness :
    PageIterator twoPageEnv (fun _ => true) "https://h/v1/d" = ([.page 1, .page 2], 2)
    ∧ PageIterator twoPageEnv (fun _ => false) "https://h/v1/d" = ([.page 1], 1) :=
  PageIterator_twoPageFixture twoPageEnv 1 2 "https://h/v1/d" "https://h/x?page=2"
    "b1" "b2"
    ⟨"https", "", "h", "/v1/d", none, false⟩
    ⟨"https", "", "h", "/x", some "page=2", false⟩
    (fun _ => rfl) (by decide) (by decide) (by decide) (by decide)
    (by decide) (by decide) (by decide) (by decide) (by decide)

/-- Auxiliary for C2: with a decoder that always returns the same non-empty
self link and fetches that always succeed, the loop from page p with
p + k = maxPages yields k pages and then the page-limit error, performing
exactly k further fetches. -/
theorem pageLoop_selfLink_aux {T : Type} (env : PageEnv T) (a : T)
    (selfURL body : String) (u : GoURL)
    (hctx : ∀ n, env.ctxErr n = none) (hne : selfURL ≠ "")
    (hp : parseURL selfURL = .ok u)
    (hf : ∀ n, env.fetch n selfURL = .ok 200 body)
    (hd : env.decode body = .ok (a, selfURL))
    (hres : resolveNextURL u selfURL = .ok selfURL) :
    ∀ k consumed fetches page, page + k = maxPages →
      pageLoop env (fun _ => true) consumed fetches selfURL page
        = (List.replicate k (.page a) ++ [.fail (.maxPagesExceeded maxPages)],
           fetches + k) := by
  intro k
  induction k with
  | zero =>
    intro consumed fetches page hpage
    rw [pageLoop, if_neg hne, hctx (page + 1)]
    dsimp only
    rw [dif_pos (by omega)]
    simp
  | succ k ih =>
    intro consumed fetches page hpage
    rw [pageLoop_step env (fun _ => true) consumed fetches selfURL page u 200 body a
          selfURL selfURL hne (hctx (page + 1)) (by omega) hp (hf fetches)
          (by omega) hd rfl hres]
    rw [ih (consumed + 1) (fetches + 1) (page + 1) (by omega)]
    refine Prod.ext ?_ ?_
    · simp [List.replicate_succ]
    · simp
      omega

/-- C2: with a decoder that always returns a non-empty next link pointing
back at the same URL and all fetches succeeding, PageIterator yields
exactly maxPages (1000) successfully decoded pages followed by one terminal
page-limit error whose kind differs from ordinary fetch failures, and
performs exactly maxPages fetches (no 1001st fetch). -/
theorem PageIterator_selfLinkCeiling {T : Type} (env : PageEnv T) (a : T)
    (selfURL body : String) (u : GoURL)
    (hctx : ∀ n, env.ctxErr n = none) (hne : selfURL ≠ "")
    (hp : parseURL selfURL = .ok u)
    (hf : ∀ n, env.fetch n selfURL = .ok 200 body)
    (hd : env.decode body = .ok (a, selfURL))
    (hres : resolveNextURL u selfURL = .ok selfURL) :
    PageIterator env (fun _ => true) selfURL
      = (List.replicate maxPages (.page a) ++ [.fail (.maxPagesExceeded maxPages)],
         maxPages)
    ∧ (∀ msg, IterError.maxPagesExceeded maxPages ≠ .requestFailed msg)
    ∧ (∀ s b, IterError.maxPagesExceeded maxPages ≠ .badStatus s b)
    ∧ (∀ e, IterError.maxPagesExceeded maxPages ≠ .ctxCanceled e) := by
  refine ⟨?_, by intro msg; simp, by intro s b; simp, by intro e; simp⟩
  simp only [PageIterator, hctx]
  have h := pageLoop_selfLink_aux env a selfURL body u hctx hne hp hf hd hres
    maxPages 0 0 0 (by omega)
  simpa using h

/-- Environment of the C2 witness: every fetch succeeds with the same body,
which decodes to a page whose next link points back at the same URL. -/
def selfLinkEnv : PageEnv Unit where
  ctxErr := fun _ => none
  fetch := fun _ _ => .ok 200 "body"
  decode := fun _ => .ok ((), "https://h/x")

/-- Witness for C2 on the concrete self-linking fixture. -/
theorem PageIterator_selfLinkCeiling_witness :
    PageIterator selfLinkEnv (fun _ => true) "https://h/x"
      = (List.replicate maxPages (.page ()) ++ [.fail (.maxPagesExceeded maxPages)],
         maxPages) :=
  (PageIterator_selfLinkCeiling selfLinkEnv () "https://h/x" "body"
    ⟨"https", "", "h", "/x", none, false⟩
    (fun _ => rfl) (by decide) (by decide) (fun _ => rfl) (by decide) (by decide)).1

/-- Auxiliary for C4, proved by induction on an upper bound of the remaining
pages: in every run of the loop, every yielded element before the last is a
successfully decoded page (an error, if yielded, ends the sequence), and the
total number of fetches is bounded by the fetches already performed plus the
number of pages yielded plus one (so nothing is fetched after an error). -/
theorem pageLoop_failLast_aux {T : Type} (env : PageEnv T) (consumer : Nat → Bool) :
    ∀ B consumed fetches nextURL page, maxPages ≤ page + B →
      (∀ x ∈ (pageLoop env consumer consumed fetches nextURL page).1.dropLast,
          x.isFail = false)
      ∧ (pageLoop env consumer consumed fetches nextURL page).2
          ≤ fetches
            + (pageLoop env consumer consumed fetches nextURL page).1.countP
                (fun x => !x.isFail) + 1 := by
  intro B
  induction B with
  | zero =>
    intro consumed fetches nextURL page hB
    rw [pageLoop]
    split
    · exact ⟨by simp, by simp; try omega⟩
    · split
      · exact ⟨by simp, by simp [Yielded.isFail]; try omega⟩
      · rw [dif_pos (by omega)]
        exact ⟨by simp, by simp [Yielded.isFail]; try omega⟩
  | succ B ih =>
    intro consumed fetches nextURL page hB
    rw [pageLoop]
    split
    · exact ⟨by simp, by simp; try omega⟩
    · split
      · exact ⟨by simp, by simp [Yielded.isFail]; try omega⟩
      · split
        · exact ⟨by simp, by simp [Yielded.isFail]; try omega⟩
        · split
          · exact ⟨by simp, by simp [Yielded.isFail]; try omega⟩
          · split
            · exact ⟨by simp, by simp [Yielded.isFail]; try omega⟩
            · exact ⟨by simp, by simp [Yielded.isFail]; try omega⟩
            · split
              · exact ⟨by simp, by simp [Yielded.isFail]; try omega⟩
              · split
                · exact ⟨by simp, by simp [Yielded.isFail]; try omega⟩
                · split
                  · split
                    · exact ⟨by simp [Yielded.isFail], by simp [Yielded.isFail]; try omega⟩
                    · rename_i next2 heq2
                      have h := ih (consumed + 1) (fetches + 1) next2 (page + 1) (by omega)
                      constructor
                      · intro x hx
                        dsimp only at hx
                        rcases hl : (pageLoop env consumer (consumed + 1) (fetches + 1)
                            next2 (page + 1)).1 with _ | ⟨y, ys⟩
                        · rw [hl] at hx
                          simp at hx
                        · rw [hl] at hx
                          simp only [List.dropLast_cons₂, List.mem_cons] at hx
                          rcases hx with rfl | hx
                          · rfl
                          · exact h.1 x (by rw [hl]; exact hx)
                      · have hc := h.2
                        dsimp only
                        simp only [List.countP_cons]
                        simp [Yielded.isFail] at hc ⊢
                        omega
                  · exact ⟨by simp, by simp [Yielded.isFail]; try omega⟩


/-- C4: in every run of PageIterator, once an element carrying an error has
been yielded the sequence ends: every element before the last one is a
successfully decoded page (so no element of any kind follows an error
element), and the fetch count never exceeds the number of yielded pages plus
one, so no fetch or decode happens after an error. -/
theorem PageIterator_errorTerminatesSequence {T : Type} (env : PageEnv T)
    (consumer : Nat → Bool) (baseURL : String) :
    (∀ x ∈ (PageIterator env consumer baseURL).1.dropLast, x.isFail = false)
    ∧ (PageIterator env consumer baseURL).2
        ≤ ((PageIterator env consumer baseURL).1.countP (fun x => !x.isFail)) + 1 := by
  unfold PageIterator
  cases hc : env.ctxErr 0 with
  | some e => exact ⟨by simp, by simp [Yielded.isFail]⟩
  | none =>
    have h := pageLoop_failLast_aux env consumer (maxPages + 1) 0 0 baseURL 0 (by omega)
    exact ⟨h.1, by simpa using h.2⟩

/-- C3: for every transport, decoder and start URL, if the governing context
is already canceled when iteration begins, or is canceled before the first
fetch of the loop, PageIterator yields exactly one error element carrying the
context's cancellation error and ends the sequence, having performed zero
fetches. -/
theorem PageIterator_canceledContext {T : Type} (env : PageEnv T)
    (consumer : Nat → Bool) (baseURL : String) (e : String) :
    (env.ctxErr 0 = some e →
      PageIterator env consumer baseURL = ([.fail (.ctxCanceled e)], 0))
    ∧ (env.ctxErr 0 = none → env.ctxErr 1 = some e → baseURL ≠ "" →
      PageIterator env consumer baseURL = ([.fail (.ctxCanceled e)], 0)) := by
  constructor
  · intro h0
    simp only [PageIterator, h0]
  · intro h0 h1 hb
    simp only [PageIterator, h0]
    rw [pageLoop, if_neg hb]
    simp only [Nat.zero_add, h1]

/-- Environment for the C3 witness in which the context is canceled from the
start. -/
def canceledEnvA : PageEnv Unit where
  ctxErr := fun _ => some "context canceled"
  fetch := fun _ _ => .netErr "unreachable"
  decode := fun _ => .error "unreachable"

/-- Environment for the C3 witness in which the context is canceled after the
pre-loop check but before the first fetch. -/
def canceledEnvB : PageEnv Unit where
  ctxErr := fun n => if n = 0 then none else some "context canceled"
  fetch := fun _ _ => .netErr "unreachable"
  decode := fun _ => .error "unreachable"

/-- Witness for C3 at concrete canceled environments. -/
theorem PageIterator_canceledContext_witness :
    PageIterator canceledEnvA (fun _ => true) "https://h/x"
      = ([.fail (.ctxCanceled "context canceled")], 0)
    ∧ PageIterator canceledEnvB (fun _ => true) "https://h/x"
      = ([.fail (.ctxCanceled "context canceled")], 0) :=
  ⟨(PageIterator_canceledContext canceledEnvA (fun _ => true) "https://h/x"
      "context canceled").1 rfl,
   (PageIterator_canceledContext canceledEnvB (fun _ => true) "https://h/x"
      "context canceled").2 rfl rfl (by decide)⟩

/-- C5: the token-exchange request produced by NewTokenSource never contains
a client_secret parameter; its parameters contain the JWT-bearer assertion
type URN under client_assertion_type and the supplied assertion under
client_assertion, placed in request parameters (auth style in-params, form
body), with grant type client_credentials. -/
theorem NewTokenSource_assertionAuth (ctxE : Option String)
    (clientID assertion scope : String) (cfg : ClientCredentialsConfig)
    (h : NewTokenSource ctxE clientID assertion scope = .ok cfg) :
    (∀ p ∈ tokenRequestParams cfg, p.1 ≠ "client_secret")
    ∧ ("client_assertion_type", ClientAssertionURI) ∈ tokenRequestParams cfg
    ∧ ("client_assertion", assertion) ∈ tokenRequestParams cfg
    ∧ ("grant_type", "client_credentials") ∈ tokenRequestParams cfg
    ∧ cfg.authStyleInParams = true := by
  cases ctxE with
  | some e => simp [NewTokenSource] at h
  | none =>
    simp only [NewTokenSource] at h
    split_ifs at h with hc ha
    all_goals
      obtain rfl : _ = cfg := Except.ok.inj h
      refine ⟨?_, by simp [tokenRequestParams], by simp [tokenRequestParams],
              by simp [tokenRequestParams], rfl⟩
      intro p hp
      simp [tokenRequestParams, hc] at hp
      rcases hp with rfl | rfl | rfl | rfl | rfl <;> simp

/-- Configuration produced by the concrete NewTokenSource call of the C5
witness. -/
def tokenCfgW : ClientCredentialsConfig where
  clientID := "cid"
  clientSecret := ""
  tokenURL := TokenURL
  scopes := [ScopeBusinessAPI]
  endpointParams := [("client_assertion_type", ClientAssertionURI),
                     ("client_assertion", "assertion-jwt")]
  authStyleInParams := true

/-- Witness for C5 at a concrete successful NewTokenSource call. -/
theorem NewTokenSource_assertionAuth_witness :
    ("client_assertion_type", ClientAssertionURI) ∈ tokenRequestParams tokenCfgW
    ∧ ("client_assertion", "assertion-jwt") ∈ tokenRequestParams tokenCfgW
    ∧ ("grant_type", "client_credentials") ∈ tokenRequestParams tokenCfgW
    ∧ tokenCfgW.authStyleInParams = true :=
  ⟨(NewTokenSource_assertionAuth none "cid" "assertion-jwt" "" tokenCfgW (by decide)).2.1,
   (NewTokenSource_assertionAuth none "cid" "assertion-jwt" "" tokenCfgW (by decide)).2.2.1,
   (NewTokenSource_assertionAuth none "cid" "assertion-jwt" "" tokenCfgW (by decide)).2.2.2.1,
   (NewTokenSource_assertionAuth none "cid" "assertion-jwt" "" tokenCfgW (by decide)).2.2.2.2⟩

/-- C6: parseECDSAPrivateKeyFromPEM accepts both historic block labels and
decodes the payload with the generic PKCS#8 decoder in both cases; it
succeeds exactly when the payload is a PKCS#8 ECDSA key on P-256; and it
fails with distinguishable errors for a missing PEM block, any other label, a
non-ECDSA key and an ECDSA key on a different curve, the wrong-curve error
being distinct from a generic parse failure. -/
theorem parseECDSAPrivateKeyFromPEM_spec (label : String) (d : DerBytes)
    (hl : label = "EC PRIVATE KEY" ∨ label = "PRIVATE KEY") :
    (parseECDSAPrivateKeyFromPEM (some ⟨label, d⟩)
        = match parsePKCS8PrivateKey d with
          | .error msg => .error (.pkcs8ParseFailed label msg)
          | .ok (.otherKey t) => .error (.unexpectedKeyType t)
          | .ok (.ecdsaKey c) =>
            if c = P256Name then .ok ⟨c⟩ else .error (.unexpectedCurve c))
    ∧ ((∃ k, parseECDSAPrivateKeyFromPEM (some ⟨label, d⟩) = .ok k)
        ↔ parsePKCS8PrivateKey d = .ok (.ecdsaKey P256Name))
    ∧ parseECDSAPrivateKeyFromPEM none = .error .missingPEMBlock
    ∧ (∀ t, t ≠ "EC PRIVATE KEY" → t ≠ "PRIVATE KEY" →
        parseECDSAPrivateKeyFromPEM (some ⟨t, d⟩) = .error (.unsupportedBlockType t))
    ∧ (∀ t, parseECDSAPrivateKeyFromPEM (some ⟨label, .wellFormed (.otherKey t)⟩)
        = .error (.unexpectedKeyType t))
    ∧ (∀ c, c ≠ P256Name →
        parseECDSAPrivateKeyFromPEM (some ⟨label, .wellFormed (.ecdsaKey c)⟩)
            = .error (.unexpectedCurve c)
          ∧ ∀ bt msg, KeyError.unexpectedCurve c ≠ .pkcs8ParseFailed bt msg) := by
  refine ⟨?_, ?_, rfl, ?_, ?_, ?_⟩
  · simp only [parseECDSAPrivateKeyFromPEM, if_pos hl]
  · simp only [parseECDSAPrivateKeyFromPEM, if_pos hl]
    cases hpd : parsePKCS8PrivateKey d with
    | error msg => simp
    | ok k =>
      cases k with
      | otherKey t => simp
      | ecdsaKey c =>
        by_cases hc : c = P256Name
        · subst hc; simp
        · simp [hc]
  · intro t h1 h2
    simp [parseECDSAPrivateKeyFromPEM, h1, h2]
  · intro t
    simp [parseECDSAPrivateKeyFromPEM, if_pos hl, parsePKCS8PrivateKey]
  · intro c hc
    refine ⟨?_, by simp⟩
    simp [parseECDSAPrivateKeyFromPEM, if_pos hl, parsePKCS8PrivateKey, hc]

/-- Witness for C6: a P-384 key under the PRIVATE KEY label is rejected with
the curve-mismatch error. -/
theorem parseECDSAPrivateKeyFromPEM_spec_witness :
    parseECDSAPrivateKeyFromPEM
        (some ⟨"PRIVATE KEY", .wellFormed (.ecdsaKey "P-384")⟩)
      = .error (.unexpectedCurve "P-384") :=
  ((parseECDSAPrivateKeyFromPEM_spec "PRIVATE KEY" (.wellFormed (.ecdsaKey "P-384"))
      (Or.inr rfl)).2.2.2.2.2 "P-384" (by decide)).1

/-- C9 (amended): NewAssertion itself reads the key file: after passing the
context check it performs exactly one read of the supplied private-key path
(its only I/O beyond CPU-bound signing), and with an already-canceled
context it returns the cancellation error immediately, reading nothing. -/
theorem NewAssertion_ioBehavior (env : AssertionEnv) (clientID keyID path : String) :
    (∀ e, env.ctxErr = some e → NewAssertion env clientID keyID path = (.error e, []))
    ∧ (env.ctxErr = none → (NewAssertion env clientID keyID path).2 = [path]) := by
  constructor
  · intro e he
    simp [NewAssertion, he]
  · intro he
    simp only [NewAssertion, he]
    cases env.readFile path with
    | error e => rfl
    | ok pv =>
      dsimp only
      cases parseECDSAPrivateKeyFromPEM pv with
      | error ke => rfl
      | ok k => rfl

/-- Environment for the C9 counterexample and witness: live context, readable
well-formed P-256 key. -/
def assertionEnvOK : AssertionEnv where
  ctxErr := none
  readFile := fun _ => .ok (some ⟨"PRIVATE KEY", .wellFormed (.ecdsaKey "P-256")⟩)
  nowUTC := 0
  newUUID := "jti-1"

/-- Counterexample for C9 as stated: on a concrete successful call,
NewAssertion performs a read of the key file, so its I/O trace is the
non-empty list holding the supplied path. -/
theorem NewAssertion_readsKeyFile_cex :
    (NewAssertion assertionEnvOK "client" "key" "private-key.pem").2 = ["private-key.pem"]
    ∧ (NewAssertion assertionEnvOK "client" "key" "private-key.pem").2 ≠ [] := by
  constructor
  · decide
  · decide

/-- Witness for the amended C9 theorem at concrete environments. -/
theorem NewAssertion_ioBehavior_witness :
    NewAssertion { assertionEnvOK with ctxErr := some "context canceled" }
        "client" "key" "k.pem" = (.error "context canceled", [])
    ∧ (NewAssertion assertionEnvOK "client" "key" "k.pem").2 = ["k.pem"] :=
  ⟨(NewAssertion_ioBehavior { assertionEnvOK with ctxErr := some "context canceled" }
      "client" "key" "k.pem").1 "context canceled" rfl,
   (NewAssertion_ioBehavior assertionEnvOK "client" "key" "k.pem").2 rfl⟩
/-- C7: every assertion NewAssertion produces has exp minus iat equal to
exactly 180 days, audience equal to the single-element list holding the fixed
authorization audience URL, issuer and subject both equal to the client ID,
and a non-empty freshly generated jti; a second call whose generated UUID
differs produces a different jti. -/
theorem NewAssertion_claimProperties (env env2 : AssertionEnv)
    (clientID keyID path : String)
    (hctx : env.ctxErr = none) (hjti : env.newUUID ≠ "")
    (hread : ∃ pv, env.readFile path = .ok pv
      ∧ ∃ k, parseECDSAPrivateKeyFromPEM pv = .ok k)
    (hctx2 : env2.ctxErr = none)
    (hread2 : ∃ pv, env2.readFile path = .ok pv
      ∧ ∃ k, parseECDSAPrivateKeyFromPEM pv = .ok k) :
    ∃ hdr claims, (NewAssertion env clientID keyID path).1 = .ok (hdr, claims)
      ∧ claims.exp - claims.iat = 180 * 24 * 60 * 60
      ∧ claims.aud = [Audience]
      ∧ claims.iss = clientID ∧ claims.sub = clientID
      ∧ claims.jti = env.newUUID ∧ claims.jti ≠ ""
      ∧ (env.newUUID ≠ env2.newUUID →
          ∀ hdr2 claims2, (NewAssertion env2 clientID keyID path).1 = .ok (hdr2, claims2) →
            claims2.jti ≠ claims.jti) := by
  obtain ⟨pv, hr, k, hk⟩ := hread
  obtain ⟨pv2, hr2, k2, hk2⟩ := hread2
  refine ⟨{ typ := "JWT", alg := "ES256", kid := keyID },
          { iss := clientID, sub := clientID, aud := [Audience],
            exp := env.nowUTC + 180 * 24 * 60 * 60, iat := env.nowUTC,
            jti := env.newUUID },
          ?_, by ring_nf, rfl, rfl, rfl, rfl, hjti, ?_⟩
  · simp [NewAssertion, hctx, hr, hk]
  · intro hne hdr2 claims2 h2
    simp only [NewAssertion, hctx2, hr2, hk2] at h2
    have h3 := Except.ok.inj h2
    injection h3 with h4 h5
    subst h5
    exact fun hjeq => hne hjeq.symm

/-- Second environment for the C7 witness, differing in the generated UUID. -/
def assertionEnvOK2 : AssertionEnv where
  ctxErr := none
  readFile := fun _ => .ok (some ⟨"EC PRIVATE KEY", .wellFormed (.ecdsaKey "P-256")⟩)
  nowUTC := 7
  newUUID := "jti-2"

/-- Witness for C7 at two concrete environments with distinct UUIDs. -/
theorem NewAssertion_claimProperties_witness :
    ∃ hdr claims, (NewAssertion assertionEnvOK "cid" "kid" "k.pem").1 = .ok (hdr, claims)
      ∧ claims.exp - claims.iat = 180 * 24 * 60 * 60
      ∧ claims.aud = [Audience]
      ∧ claims.iss = "cid" ∧ claims.sub = "cid"
      ∧ claims.jti = assertionEnvOK.newUUID ∧ claims.jti ≠ ""
      ∧ (assertionEnvOK.newUUID ≠ assertionEnvOK2.newUUID →
          ∀ hdr2 claims2,
            (NewAssertion assertionEnvOK2 "cid" "kid" "k.pem").1 = .ok (hdr2, claims2) →
              claims2.jti ≠ claims.jti) :=
  NewAssertion_claimProperties assertionEnvOK assertionEnvOK2 "cid" "kid" "k.pem"
    rfl (by decide)
    ⟨some ⟨"PRIVATE KEY", .wellFormed (.ecdsaKey "P-256")⟩, rfl, ⟨"P-256"⟩, by decide⟩
    rfl
    ⟨some ⟨"EC PRIVATE KEY", .wellFormed (.ecdsaKey "P-256")⟩, rfl, ⟨"P-256"⟩, by decide⟩

/-- Auxiliary for C10: setFieldsQuery never touches the limit key. -/
theorem setFieldsQuery_limitKey (key : String) (hk : key ≠ "limit")
    (fields : List String) :
    setFieldsQuery emptyValues key fields "limit" = [] := by
  simp only [setFieldsQuery]
  split
  · rfl
  · split
    · rfl
    · unfold valuesSet
      rw [if_neg (fun h => hk h.symm)]
      rfl
/-- C10: for every client list operation taking a Limit option (GetOrgDevices,
GetOrgDeviceAppleCareCoverage, GetMDMServers, GetMDMServerDeviceLinkages), a
zero limit omits the limit query parameter entirely, a negative limit or one
above 1000 returns an error before any HTTP request is issued, and a limit in
1..1000 is encoded as the decimal limit query parameter. -/
theorem clientListLimitHandling (fields : List String) (limit : Int)
    (deviceID serverID : String)
    (hdev : trimSpaceGo deviceID ≠ "") (hsrv : trimSpaceGo serverID ≠ "") :
    (limit = 0 →
      (∃ r, GetOrgDevices (some ⟨fields, limit⟩) = .ok r ∧ r.query "limit" = [])
      ∧ (∃ r, GetOrgDeviceAppleCareCoverage deviceID (some ⟨fields, limit⟩) = .ok r
          ∧ r.query "limit" = [])
      ∧ (∃ r, GetMDMServers (some ⟨fields, limit⟩) = .ok r ∧ r.query "limit" = [])
      ∧ (∃ r, GetMDMServerDeviceLinkages serverID (some ⟨limit⟩) = .ok r
          ∧ r.query "limit" = []))
    ∧ (limit < 0 ∨ maxPageLimit < limit →
      (∃ e, GetOrgDevices (some ⟨fields, limit⟩) = .error e)
      ∧ (∃ e, GetOrgDeviceAppleCareCoverage deviceID (some ⟨fields, limit⟩) = .error e)
      ∧ (∃ e, GetMDMServers (some ⟨fields, limit⟩) = .error e)
      ∧ (∃ e, GetMDMServerDeviceLinkages serverID (some ⟨limit⟩) = .error e))
    ∧ (1 ≤ limit → limit ≤ maxPageLimit →
      (∃ r, GetOrgDevices (some ⟨fields, limit⟩) = .ok r
          ∧ r.query "limit" = [toString limit])
      ∧ (∃ r, GetOrgDeviceAppleCareCoverage deviceID (some ⟨fields, limit⟩) = .ok r
          ∧ r.query "limit" = [toString limit])
      ∧ (∃ r, GetMDMServers (some ⟨fields, limit⟩) = .ok r
          ∧ r.query "limit" = [toString limit])
      ∧ (∃ r, GetMDMServerDeviceLinkages serverID (some ⟨limit⟩) = .ok r
          ∧ r.query "limit" = [toString limit])) := by
  have hvd : validateAndEscapeID "org device ID" deviceID = .ok (pathEscape (trimSpaceGo deviceID)) := by
    unfold validateAndEscapeID
    rw [if_neg hdev]
  have hvs : validateAndEscapeID "mdm server ID" serverID = .ok (pathEscape (trimSpaceGo serverID)) := by
    unfold validateAndEscapeID
    rw [if_neg hsrv]
  refine ⟨?_, ?_, ?_⟩
  · rintro rfl
    have hq : ∀ key,
        buildFieldsAndLimitQuery key fields 0 = .ok (setFieldsQuery emptyValues key fields) := by
      intro key
      unfold buildFieldsAndLimitQuery setLimitQuery
      rw [if_pos rfl]
    have hlin : setLimitQuery emptyValues 0 = .ok emptyValues := by
      unfold setLimitQuery
      rw [if_pos rfl]
    have e1 : GetOrgDevices (some ⟨fields, 0⟩)
        = .ok ⟨"GET", orgDevicesPath,
               setFieldsQuery emptyValues "fields[orgDevices]" fields⟩ := by
      simp only [GetOrgDevices, hq]
    have e2 : GetOrgDeviceAppleCareCoverage deviceID (some ⟨fields, 0⟩)
        = .ok ⟨"GET",
               joinPath [orgDevicesPath, pathEscape (trimSpaceGo deviceID), "appleCareCoverage"],
               setFieldsQuery emptyValues "fields[appleCareCoverage]" fields⟩ := by
      simp only [GetOrgDeviceAppleCareCoverage, hvd, hq]
    have e3 : GetMDMServers (some ⟨fields, 0⟩)
        = .ok ⟨"GET", mdmServersPath,
               setFieldsQuery emptyValues "fields[mdmServers]" fields⟩ := by
      simp only [GetMDMServers, hq]
    have e4 : GetMDMServerDeviceLinkages serverID (some ⟨0⟩)
        = .ok ⟨"GET",
               joinPath [mdmServersPath, pathEscape (trimSpaceGo serverID), "relationships", "devices"],
               emptyValues⟩ := by
      simp only [GetMDMServerDeviceLinkages, hvs, hlin]
    exact ⟨⟨_, e1, setFieldsQuery_limitKey _ (by decide) fields⟩,
           ⟨_, e2, setFieldsQuery_limitKey _ (by decide) fields⟩,
           ⟨_, e3, setFieldsQuery_limitKey _ (by decide) fields⟩,
           ⟨_, e4, rfl⟩⟩
  · intro hbad
    have herr : ∀ q : Values, ∃ e, setLimitQuery q limit = .error e := by
      intro q
      unfold setLimitQuery maxPageLimit
      unfold maxPageLimit at hbad
      split_ifs with h1 h2 h3
      · omega
      · exact ⟨_, rfl⟩
      · exact ⟨_, rfl⟩
      · omega
    refine ⟨?_, ?_, ?_, ?_⟩
    · obtain ⟨e, he⟩ := herr (setFieldsQuery emptyValues "fields[orgDevices]" fields)
      exact ⟨e, by simp only [GetOrgDevices, buildFieldsAndLimitQuery, he]⟩
    · obtain ⟨e, he⟩ := herr (setFieldsQuery emptyValues "fields[appleCareCoverage]" fields)
      exact ⟨e, by simp only [GetOrgDeviceAppleCareCoverage, hvd, buildFieldsAndLimitQuery, he]⟩
    · obtain ⟨e, he⟩ := herr (setFieldsQuery emptyValues "fields[mdmServers]" fields)
      exact ⟨e, by simp only [GetMDMServers, buildFieldsAndLimitQuery, he]⟩
    · obtain ⟨e, he⟩ := herr emptyValues
      exact ⟨e, by simp only [GetMDMServerDeviceLinkages, hvs, he]⟩
  · intro h1 h2
    have hok : ∀ q : Values, setLimitQuery q limit = .ok (valuesSet q "limit" (toString limit)) := by
      intro q
      unfold setLimitQuery maxPageLimit
      unfold maxPageLimit at h2
      rw [if_neg (by omega), if_neg (by omega), if_neg (by omega)]
    have hlook : ∀ q : Values, valuesSet q "limit" (toString limit) "limit" = [toString limit] := by
      intro q
      unfold valuesSet
      rw [if_pos rfl]
    have e1 : GetOrgDevices (some ⟨fields, limit⟩)
        = .ok ⟨"GET", orgDevicesPath,
               valuesSet (setFieldsQuery emptyValues "fields[orgDevices]" fields)
                 "limit" (toString limit)⟩ := by
      simp only [GetOrgDevices, buildFieldsAndLimitQuery, hok]
    have e2 : GetOrgDeviceAppleCareCoverage deviceID (some ⟨fields, limit⟩)
        = .ok ⟨"GET",
               joinPath [orgDevicesPath, pathEscape (trimSpaceGo deviceID), "appleCareCoverage"],
               valuesSet (setFieldsQuery emptyValues "fields[appleCareCoverage]" fields)
                 "limit" (toString limit)⟩ := by
      simp only [GetOrgDeviceAppleCareCoverage, hvd, buildFieldsAndLimitQuery, hok]
    have e3 : GetMDMServers (some ⟨fields, limit⟩)
        = .ok ⟨"GET", mdmServersPath,
               valuesSet (setFieldsQuery emptyValues "fields[mdmServers]" fields)
                 "limit" (toString limit)⟩ := by
      simp only [GetMDMServers, buildFieldsAndLimitQuery, hok]
    have e4 : GetMDMServerDeviceLinkages serverID (some ⟨limit⟩)
        = .ok ⟨"GET",
               joinPath [mdmServersPath, pathEscape (trimSpaceGo serverID), "relationships", "devices"],
               valuesSet emptyValues "limit" (toString limit)⟩ := by
      simp only [GetMDMServerDeviceLinkages, hvs, hok]
    exact ⟨⟨_, e1, hlook (setFieldsQuery emptyValues "fields[orgDevices]" fields)⟩,
           ⟨_, e2, hlook (setFieldsQuery emptyValues "fields[appleCareCoverage]" fields)⟩,
           ⟨_, e3, hlook (setFieldsQuery emptyValues "fields[mdmServers]" fields)⟩,
           ⟨_, e4, hlook emptyValues⟩⟩

/-- Witness for C10 at concrete inputs exercising all three limit regimes. -/
theorem clientListLimitHandling_witness :
    (∃ r, GetOrgDevices (some ⟨[], 0⟩) = .ok r ∧ r.query "limit" = [])
    ∧ (∃ e, GetMDMServers (some ⟨[], -1⟩) = .error e)
    ∧ (∃ r, GetMDMServerDeviceLinkages "srv" (some ⟨5⟩) = .ok r
        ∧ r.query "limit" = [toString (5 : Int)]) :=
  ⟨((clientListLimitHandling [] 0 "dev" "srv" (by decide) (by decide)).1 rfl).1,
   ((clientListLimitHandling [] (-1) "dev" "srv" (by decide) (by decide)).2.1
      (Or.inl (by decide))).2.2.1,
   ((clientListLimitHandling [] 5 "dev" "srv" (by decide) (by decide)).2.2
      (by decide) (by decide)).2.2.2⟩
/-- C8: with an absolute base URL, resolveNextURL maps an empty next link to
the empty string without error; an absolute next link to that URL itself; a
relative next link to its resolution against the URL that produced the
current page, whose scheme is the (non-empty) base scheme, so every non-empty
success is an absolute URL; and a malformed next link to a terminal error. -/
theorem resolveNextURL_spec (base : GoURL) (hbase : base.scheme ≠ "") :
    resolveNextURL base "" = .ok ""
    ∧ (∀ next u, next ≠ "" → parseURL next = .ok u → u.scheme ≠ "" →
        resolveNextURL base next = .ok (urlString u))
    ∧ (∀ next u, next ≠ "" → parseURL next = .ok u → u.scheme = "" →
        resolveNextURL base next = .ok (urlString (resolveReference base u))
          ∧ (resolveReference base u).scheme = base.scheme
          ∧ (resolveReference base u).scheme ≠ "")
    ∧ (∀ next e, parseURL next = .error e →
        resolveNextURL base next = .error ("parse next links url: " ++ e)) := by
  refine ⟨by simp [resolveNextURL], ?_, ?_, ?_⟩
  · intro next u hne hp hs
    unfold resolveNextURL
    rw [if_neg hne, hp]
    simp [hs]
  · intro next u hne hp hs
    have h2 : (resolveReference base u).scheme = base.scheme := by
      unfold resolveReference
      rw [if_pos hs]
      split
      · rfl
      · split
        · rfl
        · rfl
    refine ⟨?_, h2, h2 ▸ hbase⟩
    unfold resolveNextURL
    rw [if_neg hne, hp]
    simp [hs]
  · intro next e hp
    by_cases hne : next = ""
    · subst hne
      have hok : parseURL "" = .ok ⟨"", "", "", "", none, false⟩ := by decide
      rw [hok] at hp
      exact Except.noConfusion hp
    · unfold resolveNextURL
      rw [if_neg hne, hp]

/-- Base URL for the C8 witness. -/
def baseW : GoURL :=
  { scheme := "https", opaq := "", host := "h", path := "/v1/orgDevices",
    rawQuery := none, omitHost := false }

/-- Absolute next link of the C8 witness, as parsed. -/
def absW : GoURL :=
  { scheme := "https", opaq := "", host := "other", path := "/a",
    rawQuery := some "b=c", omitHost := false }

/-- Relative next link of the C8 witness, as parsed. -/
def relW : GoURL :=
  { scheme := "", opaq := "", host := "", path := "/x",
    rawQuery := some "page=2", omitHost := false }

/-- Witness for C8 exercising all four behaviours at concrete links. -/
theorem resolveNextURL_spec_witness :
    resolveNextURL baseW "" = .ok ""
    ∧ resolveNextURL baseW "https://other/a?b=c" = .ok (urlString absW)
    ∧ resolveNextURL baseW "/x?page=2" = .ok (urlString (resolveReference baseW relW))
    ∧ resolveNextURL baseW "://bad" = .error ("parse next links url: " ++ "missing protocol scheme") :=
  ⟨(resolveNextURL_spec baseW (by decide)).1,
   (resolveNextURL_spec baseW (by decide)).2.1 "https://other/a?b=c" absW
     (by decide) (by decide) (by decide),
   ((resolveNextURL_spec baseW (by decide)).2.2.1 "/x?page=2" relW
     (by decide) (by decide) (by decide)).1,
   (resolveNextURL_spec baseW (by decide)).2.2.2 "://bad" "missing protocol scheme"
     (by decide)⟩

end Abm
